import Mathlib

/-!
# Verification of the TR-Platform data-retrieval scripts

Shallow embedding of the two pipelines of the repository:

* `src/stab.py` — the stablecoin historical fetcher
  (`fetch_stablecoin_historical_data`, `validate_csv_structure`);
* `src/dune/q.py` — the Dune query executor's module-level polling loop.

External effects (HTTP requests, sleeps, log lines, the CSV write) are made
explicit: the HTTP world is an oracle mapping each request to a response, and
every run returns, besides its value, the ordered list of `Event`s it performed.
Python numbers are modelled as exact rationals `ℚ`; Python exceptions as
`Except` / `Option` at the granularity the source's `try/except` blocks give
them.
-/

namespace Stab

/-- An input row of the stablecoins CSV: columns `id`, `name`, `symbol`
(`stab.py` lines 44-47). -/
structure Entity where
  id : String
  name : String
  symbol : String
deriving DecidableEq, Repr

/-- The value found at `point['peggedUSD']` inside one of the nested USD
dictionaries (`stab.py` lines 97, 100), as the pair of facts the code
inspects: its Python truthiness and what `float(·)` does to it.

* `num q` — an int or finite float with exact value `q`; truthy iff `q ≠ 0`,
  and `float(·)` returns `q`.
* `truthyNonNumeric` — a truthy value `float(·)` raises on (e.g. a non-numeric
  string or a dict); the `ValueError`/`TypeError` is caught at line 115 and the
  point is skipped.
* `falsy` — a falsy non-number (`None`, `""`, `{}`, ...): the
  `if circulating_usd else 0.00` guard at lines 108-109 short-circuits to
  `0.00` before `float` is called. -/
inductive PegVal where
  | num (q : ℚ)
  | truthyNonNumeric
  | falsy
deriving DecidableEq, Repr

/-- The state of a point's `totalCirculatingUSD` / `totalBridgedToUSD` field
as discriminated by lines 96-100 of `stab.py`:
`if 'totalCirculatingUSD' in point and point['totalCirculatingUSD']:`
followed by `.get('peggedUSD', 0)`.

* `absent` — the key is not in the point dict;
* `falsyVal` — present but falsy (`None`, `{}`, `0`, ...);
* `truthyNoPegged` — a truthy dict without a `peggedUSD` key (`.get` yields
  the default `0`);
* `truthyPegged v` — a truthy dict whose `peggedUSD` is `v`.

A truthy non-dict value would raise `AttributeError` on `.get`, an exception
outside the `(KeyError, ValueError, TypeError)` tuple of line 115, aborting
the whole run; such inputs are outside the modelled space since no claim
involves them. -/
inductive UsdField where
  | absent
  | falsyVal
  | truthyNoPegged
  | truthyPegged (v : PegVal)
deriving DecidableEq, Repr

/-- The point's `date` field as consumed by `int(point['date'])` at line 89.
`valid ts` means `int(·)` yields `ts` and `datetime.fromtimestamp(ts)` is in
range; `invalid` covers a present value `int(·)` raises on
(`ValueError`/`TypeError`, caught at line 115). -/
inductive DateVal where
  | valid (ts : Int)
  | invalid
deriving DecidableEq, Repr

/-- One element of the JSON list returned by the charting endpoint
(`stab.py` lines 86-100): the three fields the code reads. `date = none`
models the key being absent (`KeyError` at line 89, caught at line 115). -/
structure RawPoint where
  date : Option DateVal
  totalCirculatingUSD : UsdField
  totalBridgedToUSD : UsdField
deriving DecidableEq, Repr

/-- A normalized output row (`stab.py` lines 103-111). -/
structure Record where
  stablecoin_id : String
  stablecoin_name : String
  stablecoin_symbol : String
  date : String
  circulating_usd : ℚ
  bridged_usd : ℚ
  created_at : String
deriving DecidableEq, Repr

/-- Python's `round(x, 2)` on an exact value: round to the nearest multiple
of `1/100`. Python's tie-breaking (round-half-to-even on the binary float)
differs from `round`'s half-up at exact half-cent ties; no claim depends on
ties, only on sign, zero and order of magnitude. -/
def round2 (q : ℚ) : ℚ := ((q * 100 + 1 / 2).floor : ℤ) / 100

/-- The date formatting `datetime.fromtimestamp(ts).strftime('%Y-%m-%d %H:%M:%S')` (`stab.py`
lines 90, 107), abstracted to an executable encoding of the timestamp: the
timezone-dependent calendar rendering is irrelevant to every claim, each of
which depends only on which string a given timestamp maps to, not on its
shape. -/
def formatTimestamp (ts : Int) : String := toString ts

/-- Lines 93-100 of `stab.py`: the raw value bound to `circulating_usd` /
`bridged_usd` before the conditional rounding. Starts at the int `0` and is
overwritten with `.get('peggedUSD', 0)` when the outer field is present and
truthy. -/
def usdRaw : UsdField → PegVal
  | .absent => .num 0
  | .falsyVal => .num 0
  | .truthyNoPegged => .num 0
  | .truthyPegged v => v

/-- Lines 108-109 of `stab.py`:
`round(float(x), 2) if x else 0.00`. `none` models `float(·)` raising
(`ValueError`/`TypeError`), which skips the whole point via line 115. -/
def usdOut : PegVal → Option ℚ
  | .num q => some (if q = 0 then 0 else round2 q)
  | .truthyNonNumeric => none
  | .falsy => some 0

/-- Lines 87-117 of `stab.py`: normalization of one data point into a
`Record`. `none` means one of `KeyError`, `ValueError`, `TypeError` was
raised and caught at line 115, skipping the point. The evaluation order of
the source (date first, then circulating, then bridged) is preserved by the
`Option` chaining. `now` is the `datetime.now()` capture of line 110. -/
def processPoint (e : Entity) (now : String) (p : RawPoint) : Option Record :=
  match p.date with
  | none => none
  | some .invalid => none
  | some (.valid ts) =>
    match usdOut (usdRaw p.totalCirculatingUSD), usdOut (usdRaw p.totalBridgedToUSD) with
    | some c, some b =>
      some { stablecoin_id := e.id
             stablecoin_name := e.name
             stablecoin_symbol := e.symbol
             date := formatTimestamp ts
             circulating_usd := c
             bridged_usd := b
             created_at := now }
    | _, _ => none

/-- Every numeric `peggedUSD` value reachable inside this field is
non-negative. Used to state the amended non-negativity invariant. -/
def UsdField.sourceNonneg : UsdField → Prop
  | .truthyPegged (.num q) => 0 ≤ q
  | _ => True

instance : DecidablePred UsdField.sourceNonneg := by
  intro f
  unfold UsdField.sourceNonneg
  match f with
  | .truthyPegged (.num q) => exact inferInstanceAs (Decidable (0 ≤ q))
  | .absent => exact inferInstanceAs (Decidable True)
  | .falsyVal => exact inferInstanceAs (Decidable True)
  | .truthyNoPegged => exact inferInstanceAs (Decidable True)
  | .truthyPegged .truthyNonNumeric => exact inferInstanceAs (Decidable True)
  | .truthyPegged .falsy => exact inferInstanceAs (Decidable True)

/-- The outcome of `response.json()` on a 200 response (`stab.py` lines
60-61): the parse raises, or yields a non-list (or falsy non-list) value, or
yields a Python list of points. An empty list is falsy, so only a non-empty
`list` passes the `if data and isinstance(data, list)` guard of line 61. -/
inductive Payload where
  | invalidJson
  | nonList
  | list (points : List RawPoint)
deriving DecidableEq, Repr

/-- One `requests.get(url, timeout=30)` outcome, as discriminated by lines
57-76 of `stab.py`: a 200 carrying a payload, a 429, another status code, or
the request raising (timeout, connection error, ...). -/
inductive HttpResponse where
  | ok (body : Payload)
  | rateLimited
  | httpError (code : Nat)
  | transportError
deriving DecidableEq, Repr

/-- The kind of a `time.sleep` call in `stab.py`: the jittered
`random.uniform(1, 3)` backoff (lines 67, 73, 76), the fixed 10-second
rate-limit sleep (line 70), or the inter-entity `delay_between_requests`
sleep (line 123), whose duration is recorded. -/
inductive SleepKind where
  | jitter
  | fixed10
  | interEntity (delay : ℚ)
deriving DecidableEq, Repr

/-- A log line of `fetch_stablecoin_historical_data`, one constructor per
`logger.…` call site in the loop body. -/
inductive LogMsg where
  /-- line 64, `logger.warning`: empty or invalid JSON -/
  | emptyOrInvalidJson (symbol : String)
  /-- line 66, `logger.warning`: `response.json()` raised -/
  | invalidJson (symbol : String)
  /-- line 69, `logger.warning`: rate limited -/
  | rateLimited
  /-- line 72, `logger.warning`: HTTP status other than 200/429 -/
  | httpFailed (code : Nat)
  /-- line 75, `logger.warning`: `requests.get` raised -/
  | requestError (symbol : String)
  /-- line 78, `logger.error`: giving up after `max_retries` attempts -/
  | givingUp (symbol : String)
  /-- line 82, `logger.info`: no historical data available -/
  | noData (symbol : String)
  /-- line 116, `logger.warning`: error processing one data point -/
  | pointError (symbol : String)
  /-- line 119, `logger.info`: successfully processed n data points -/
  | processed (symbol : String) (n : Nat)
  /-- line 143, `logger.warning`: no data collected for any stablecoin -/
  | noDataCollected
deriving DecidableEq, Repr

/-- Severity of each log call site, as written in the source. -/
def LogMsg.level : LogMsg → String
  | .givingUp _ => "error"
  | .noData _ => "info"
  | .processed _ _ => "info"
  | _ => "warning"

/-- An observable effect of a run, in program order. -/
inductive Event where
  /-- one `requests.get` for the entity with this stablecoin id (line 57) -/
  | request (stablecoinId : String)
  | sleep (k : SleepKind)
  | log (m : LogMsg)
  /-- `historical_df.to_csv(output_csv_path)` (line 133) with the sorted rows -/
  | write (path : String) (rows : List Record)
deriving DecidableEq, Repr

/-- Whether an event is the inter-entity rate-limit sleep of line 123. -/
def Event.isInterEntitySleep : Event → Bool
  | .sleep (.interEntity _) => true
  | _ => false

/-- Whether an event is a `requests.get` against the entity with stablecoin
id `x`. -/
def Event.isRequestTo (x : String) : Event → Bool
  | .request y => x == y
  | _ => false

/-- The constant `max_retries = 3` (`stab.py` line 54). -/
def max_retries : Nat := 3

/-- The retry loop, lines 55-76 of `stab.py`: `for attempt in range(fuel)`,
starting at attempt number `i` against the per-attempt response oracle
`resp`. Returns the accepted payload (`none` if every attempt was consumed
without a `break`, i.e. the `for`'s `else` clause will run) and the events
performed. Only a 200 whose JSON is a non-empty list is accepted (line 61);
every other outcome logs a warning, sleeps (jitter, or a fixed 10 s on 429)
and retries — the sleep happens even on the final attempt, inside the loop
body. -/
def attemptFetch (eid symbol : String) (resp : Nat → HttpResponse) :
    Nat → Nat → Option (List RawPoint) × List Event
  | _, 0 => (none, [])
  | i, fuel + 1 =>
    match resp i with
    | .ok (.list pts) =>
      if pts.isEmpty then
        let r := attemptFetch eid symbol resp (i + 1) fuel
        (r.1, .request eid :: .log (.emptyOrInvalidJson symbol) :: .sleep .jitter :: r.2)
      else
        (some pts, [.request eid])
    | .ok .nonList =>
      let r := attemptFetch eid symbol resp (i + 1) fuel
      (r.1, .request eid :: .log (.emptyOrInvalidJson symbol) :: .sleep .jitter :: r.2)
    | .ok .invalidJson =>
      let r := attemptFetch eid symbol resp (i + 1) fuel
      (r.1, .request eid :: .log (.invalidJson symbol) :: .sleep .jitter :: r.2)
    | .rateLimited =>
      let r := attemptFetch eid symbol resp (i + 1) fuel
      (r.1, .request eid :: .log .rateLimited :: .sleep .fixed10 :: r.2)
    | .httpError code =>
      let r := attemptFetch eid symbol resp (i + 1) fuel
      (r.1, .request eid :: .log (.httpFailed code) :: .sleep .jitter :: r.2)
    | .transportError =>
      let r := attemptFetch eid symbol resp (i + 1) fuel
      (r.1, .request eid :: .log (.requestError symbol) :: .sleep .jitter :: r.2)

/-- Lines 86-117 of `stab.py`: normalize each point in order, appending the
record on success and logging a warning on failure (the `continue` of
line 117 skips only the point). -/
def processPoints (e : Entity) (now : String) : List RawPoint → List Record × List Event
  | [] => ([], [])
  | p :: ps =>
    let rest := processPoints e now ps
    match processPoint e now p with
    | some r => (r :: rest.1, rest.2)
    | none => (rest.1, .log (.pointError e.symbol) :: rest.2)

/-- Result of the loop body for one entity: its normalized records, its
events, and whether the body ended in a `continue` (line 79 or 83), which
also skips the inter-entity sleep of lines 122-123. -/
structure EntityResult where
  records : List Record
  events : List Event
  skipped : Bool
deriving DecidableEq, Repr

/-- Lines 51-119 of `stab.py`: one iteration of the entity loop, minus the
inter-entity sleep (placed in `runEntities`, as in the source). After the
retry loop: its `else` clause (line 77-79) logs an error and skips the
entity; otherwise the accepted payload reaches the `if not data or
len(data) == 0` guard of line 81 (embedded faithfully although acceptance
already implies non-emptiness), then every point is normalized. -/
def processEntity (now : String) (resp : Nat → HttpResponse) (e : Entity) : EntityResult :=
  let f := attemptFetch e.id e.symbol resp 0 max_retries
  match f.1 with
  | none =>
    { records := [], events := f.2 ++ [.log (.givingUp e.symbol)], skipped := true }
  | some pts =>
    if pts.isEmpty then
      { records := [], events := f.2 ++ [.log (.noData e.symbol)], skipped := true }
    else
      let pp := processPoints e now pts
      { records := pp.1
        events := f.2 ++ pp.2 ++ [.log (.processed e.symbol pts.length)]
        skipped := false }

/-- Lines 44-123 of `stab.py`: the loop over `stablecoins_df.iterrows()`.
`i` is the running index and `total` the row count; the inter-entity sleep
runs only when the body did not `continue` and `i < total - 1`
(lines 121-123). The oracle maps a stablecoin id and an attempt number to
that attempt's response (the URL of line 52 is a function of the id). -/
def runEntities (now : String) (oracle : String → Nat → HttpResponse) (delay : ℚ)
    (total : Nat) : Nat → List Entity → List Record × List Event
  | _, [] => ([], [])
  | i, e :: rest =>
    let r := processEntity now (oracle e.id) e
    let sleepEvs : List Event :=
      if !r.skipped && i < total - 1 then [.sleep (.interEntity delay)] else []
    let tail := runEntities now oracle delay total (i + 1) rest
    (r.records ++ tail.1, r.events ++ sleepEvs ++ tail.2)

/-- The comparison behind
`historical_df.sort_values(['date', 'stablecoin_symbol'])` (`stab.py`
line 130): lexicographic on the (date string, symbol string) key, with
pandas' string ordering being the usual lexicographic one. -/
def recordLE (a b : Record) : Bool :=
  a.date < b.date || (a.date == b.date && a.stablecoin_symbol ≤ b.stablecoin_symbol)

/-- The comparison `recordLE` as a decidable relation, for the sort. -/
def recordLEP (a b : Record) : Prop := recordLE a b = true

instance : DecidableRel recordLEP := fun _ _ => inferInstanceAs (Decidable (_ = true))

/-- The stablecoins CSV as `pd.read_csv` delivers it: its header and the
entity projection of its rows (meaningful once the required columns are
present). -/
structure StablecoinsCsv where
  columns : List String
  entities : List Entity
deriving Repr

/-- The list `required_columns = ['id', 'name', 'symbol']` (`stab.py` line 33). -/
def required_columns : List String := ["id", "name", "symbol"]

/-- A fatal error of `fetch_stablecoin_historical_data`, re-raised to the
caller (lines 145-150): the input file is absent, or required columns are
missing (the `ValueError` of line 36). -/
inductive FetchError where
  | fileNotFound
  | missingColumns (missing : List String)
deriving DecidableEq, Repr

/-- Default of the `delay_between_requests` parameter (`stab.py` line 16):
`0.5` seconds. -/
def DEFAULT_DELAY : ℚ := 1 / 2

/-- The fetcher `fetch_stablecoin_historical_data` (`stab.py` lines 13-150). `input` is
the result of reading `stablecoins_csv_path` (`none` = `FileNotFoundError`);
`now` the `datetime.now()` capture; `oracle` the HTTP world. Returns the
run's outcome (`Except.error` = exception re-raised to the caller) and its
events. Column validation (lines 32-36) precedes every network call; at the
end (lines 126-143) a non-empty accumulator is sorted by
`['date', 'stablecoin_symbol']` and written, an empty one only logs a
warning. -/
def fetch_stablecoin_historical_data (now : String) (input : Option StablecoinsCsv)
    (oracle : String → Nat → HttpResponse) (output_csv_path : String)
    (delay_between_requests : ℚ := DEFAULT_DELAY) :
    Except FetchError Unit × List Event :=
  match input with
  | none => (.error .fileNotFound, [])
  | some csv =>
    let missing := required_columns.filter (fun c => !csv.columns.contains c)
    if missing.isEmpty then
      let run := runEntities now oracle delay_between_requests csv.entities.length 0 csv.entities
      if run.1.isEmpty then
        (.ok (), run.2 ++ [.log .noDataCollected])
      else
        (.ok (), run.2 ++ [.write output_csv_path (List.insertionSort recordLEP run.1)])
    else
      (.error (.missingColumns missing), [])

/-- What `pd.read_csv(csv_path)` inside `validate_csv_structure` yields
(`stab.py` line 163): an exception (`FileNotFoundError`, a parse error, ...)
or a dataframe, of which the validator inspects the header and whether each
of the four dtype conversions of lines 178-181 succeeds. -/
inductive CsvReadResult where
  | ioError
  | table (columns : List String) (dateParses circulatingParses bridgedParses createdAtParses : Bool)
deriving DecidableEq, Repr

/-- The validator's `expected_columns` (`stab.py` lines 165-168). -/
def expected_columns : List String :=
  ["stablecoin_id", "stablecoin_name", "stablecoin_symbol",
   "date", "circulating_usd", "bridged_usd", "created_at"]

/-- A log line of `validate_csv_structure`. -/
inductive ValidateLog where
  /-- line 173, `logger.error`: missing columns -/
  | missingCols (missing : List String)
  /-- line 183, `logger.error`: data type validation failed -/
  | dtypeFailed
  /-- line 186, `logger.info`: validation passed -/
  | passed
  /-- line 190, `logger.error`: the outer `except Exception` caught -/
  | readFailed
deriving DecidableEq, Repr

/-- The validator `validate_csv_structure` (`stab.py` lines 152-191). The whole body sits
in `try: ... except Exception as e: logger.error(...); return False`, so
every `Exception` — including I/O-level ones such as `FileNotFoundError`
from `pd.read_csv` — is caught and turned into `False`; the `Except.error`
arm of the result type is never used (only a non-`Exception` such as
`KeyboardInterrupt` could escape, outside the model). The dtype checks of
lines 177-184 sit in their own inner `try`, returning `False` on failure. -/
def validate_csv_structure (read : CsvReadResult) : Except String Bool × List ValidateLog :=
  match read with
  | .ioError => (.ok false, [.readFailed])
  | .table columns dateP circP bridgedP createdP =>
    let missing := expected_columns.filter (fun c => !columns.contains c)
    if missing.isEmpty then
      if dateP && circP && bridgedP && createdP then
        (.ok true, [.passed])
      else
        (.ok false, [.dtypeFailed])
    else
      (.ok false, [.missingCols missing])

end Stab

namespace Dune

/-- The completion state constant compared against at `q.py` line 35. -/
def QUERY_STATE_COMPLETED : String := "QUERY_STATE_COMPLETED"

/-- An observable effect of the polling loop: one
`get_execution_status` request (poll number attached), or the
`time.sleep(5)` of `q.py` line 37. -/
inductive PollEvent where
  | statusRequest (n : Nat)
  | sleep5
deriving DecidableEq, Repr

/-- The module-level polling loop of `q.py` lines 33-37:

`while True: status = get_execution_status(...); if status["state"] ==
"QUERY_STATE_COMPLETED": break; time.sleep(5)`.

`states n` is the `state` field of the `n`-th status response. The source
loop is unbounded, so the embedding takes explicit fuel: `pollLoop states i
fuel` runs at most `fuel` iterations starting from poll number `i`,
returning the poll number that observed `QUERY_STATE_COMPLETED` (`none` if
the fuel ran out first, i.e. the source loop is still running) with the
events performed. There is no timeout, deadline or failure-state check in
the source: only equality with `QUERY_STATE_COMPLETED` exits the loop. -/
def pollLoop (states : Nat → String) : Nat → Nat → Option Nat × List PollEvent
  | _, 0 => (none, [])
  | i, fuel + 1 =>
    if states i = QUERY_STATE_COMPLETED then
      (some i, [.statusRequest i])
    else
      let r := pollLoop states (i + 1) fuel
      (r.1, .statusRequest i :: .sleep5 :: r.2)

end Dune

/-! ## Basic lemmas about the retry loop -/

namespace Stab

/-- An accepted payload is a non-empty list: line 61's guard
`if data and isinstance(data, list)` rejects the empty (falsy) list. -/
theorem attemptFetch_fst_isEmpty (eid symbol : String) (resp : Nat → HttpResponse) :
    ∀ fuel i pts, (attemptFetch eid symbol resp i fuel).1 = some pts →
      pts.isEmpty = false := by
  intro fuel
  induction fuel with
  | zero => intro i pts h; simp [attemptFetch] at h
  | succ n ih =>
    intro i pts h
    unfold attemptFetch at h
    cases hr : resp i with
    | ok body =>
      rw [hr] at h
      cases body with
      | invalidJson => exact ih (i + 1) pts h
      | nonList => exact ih (i + 1) pts h
      | list pts' =>
        by_cases hp : pts'.isEmpty
        · simp only [hp, if_true] at h
          exact ih (i + 1) pts h
        · simp only [hp, if_false] at h
          obtain rfl : pts' = pts := by simpa using h
          simpa using hp
    | rateLimited => rw [hr] at h; exact ih (i + 1) pts h
    | httpError code => rw [hr] at h; exact ih (i + 1) pts h
    | transportError => rw [hr] at h; exact ih (i + 1) pts h

/-- An accepted payload was the body of one of the attempts' 200 responses. -/
theorem attemptFetch_fst_some_attempt (eid symbol : String) (resp : Nat → HttpResponse) :
    ∀ fuel i pts, (attemptFetch eid symbol resp i fuel).1 = some pts →
      ∃ j, resp j = .ok (.list pts) := by
  intro fuel
  induction fuel with
  | zero => intro i pts h; simp [attemptFetch] at h
  | succ n ih =>
    intro i pts h
    unfold attemptFetch at h
    cases hr : resp i with
    | ok body =>
      rw [hr] at h
      cases body with
      | invalidJson => exact ih (i + 1) pts h
      | nonList => exact ih (i + 1) pts h
      | list pts' =>
        by_cases hp : pts'.isEmpty
        · simp only [hp, if_true] at h
          exact ih (i + 1) pts h
        · simp only [hp, if_false] at h
          obtain rfl : pts' = pts := by simpa using h
          exact ⟨i, hr⟩
    | rateLimited => rw [hr] at h; exact ih (i + 1) pts h
    | httpError code => rw [hr] at h; exact ih (i + 1) pts h
    | transportError => rw [hr] at h; exact ih (i + 1) pts h

/-- Every event of the retry loop is a request to this entity's URL, a log
line, or a backoff sleep — never a write and never the inter-entity sleep. -/
theorem attemptFetch_events_shape (eid symbol : String) (resp : Nat → HttpResponse) :
    ∀ fuel i ev, ev ∈ (attemptFetch eid symbol resp i fuel).2 →
      ev = .request eid ∨ (∃ m, ev = .log m) ∨ ev = .sleep .jitter ∨
        ev = .sleep .fixed10 := by
  intro fuel
  induction fuel with
  | zero => intro i ev h; simp [attemptFetch] at h
  | succ n ih =>
    intro i ev h
    unfold attemptFetch at h
    cases hr : resp i with
    | ok body =>
      rw [hr] at h
      cases body with
      | invalidJson =>
        simp only [List.mem_cons] at h
        rcases h with rfl | rfl | rfl | h
        · exact Or.inl rfl
        · exact Or.inr (Or.inl ⟨_, rfl⟩)
        · exact Or.inr (Or.inr (Or.inl rfl))
        · exact ih (i + 1) ev h
      | nonList =>
        simp only [List.mem_cons] at h
        rcases h with rfl | rfl | rfl | h
        · exact Or.inl rfl
        · exact Or.inr (Or.inl ⟨_, rfl⟩)
        · exact Or.inr (Or.inr (Or.inl rfl))
        · exact ih (i + 1) ev h
      | list pts' =>
        by_cases hp : pts'.isEmpty
        · simp only [hp, if_true, List.mem_cons] at h
          rcases h with rfl | rfl | rfl | h
          · exact Or.inl rfl
          · exact Or.inr (Or.inl ⟨_, rfl⟩)
          · exact Or.inr (Or.inr (Or.inl rfl))
          · exact ih (i + 1) ev h
        · simp [hp] at h
          exact Or.inl h
    | rateLimited =>
      rw [hr] at h
      simp only [List.mem_cons] at h
      rcases h with rfl | rfl | rfl | h
      · exact Or.inl rfl
      · exact Or.inr (Or.inl ⟨_, rfl⟩)
      · exact Or.inr (Or.inr (Or.inr rfl))
      · exact ih (i + 1) ev h
    | httpError code =>
      rw [hr] at h
      simp only [List.mem_cons] at h
      rcases h with rfl | rfl | rfl | h
      · exact Or.inl rfl
      · exact Or.inr (Or.inl ⟨_, rfl⟩)
      · exact Or.inr (Or.inr (Or.inl rfl))
      · exact ih (i + 1) ev h
    | transportError =>
      rw [hr] at h
      simp only [List.mem_cons] at h
      rcases h with rfl | rfl | rfl | h
      · exact Or.inl rfl
      · exact Or.inr (Or.inl ⟨_, rfl⟩)
      · exact Or.inr (Or.inr (Or.inl rfl))
      · exact ih (i + 1) ev h

/-- Characterization of a successful normalization: the date was a valid
timestamp, both USD extractions returned a value, and the record's fields
come from them. -/
theorem processPoint_eq_some (e : Entity) (now : String) (p : RawPoint) (r : Record)
    (h : processPoint e now p = some r) :
    ∃ ts c b, p.date = some (.valid ts)
      ∧ usdOut (usdRaw p.totalCirculatingUSD) = some c
      ∧ usdOut (usdRaw p.totalBridgedToUSD) = some b
      ∧ r = { stablecoin_id := e.id, stablecoin_name := e.name,
              stablecoin_symbol := e.symbol, date := formatTimestamp ts,
              circulating_usd := c, bridged_usd := b, created_at := now } := by
  unfold processPoint at h
  cases hd : p.date with
  | none => rw [hd] at h; exact absurd h (by simp)
  | some dv =>
    rw [hd] at h
    cases dv with
    | invalid => exact absurd h (by simp)
    | valid ts =>
      cases hc : usdOut (usdRaw p.totalCirculatingUSD) with
      | none => rw [hc] at h; exact absurd h (by simp)
      | some c =>
        cases hb : usdOut (usdRaw p.totalBridgedToUSD) with
        | none => rw [hc, hb] at h; exact absurd h (by simp)
        | some b =>
          rw [hc, hb] at h
          exact ⟨ts, c, b, rfl, rfl, rfl, (Option.some_inj.mp h).symm⟩

/-- The library `Rat.floor` is the `Int.floor` of the `FloorRing ℚ` instance. -/
theorem rat_floor_eq_intFloor (q : ℚ) : q.floor = ⌊q⌋ := rfl

/-- Rounding to two decimals preserves non-negativity. -/
theorem round2_nonneg (q : ℚ) (h : 0 ≤ q) : 0 ≤ round2 q := by
  unfold round2
  rw [rat_floor_eq_intFloor]
  have h1 : (0 : ℤ) ≤ ⌊q * 100 + 1 / 2⌋ := by
    have h2 : ⌊(1 / 2 : ℚ)⌋ ≤ ⌊q * 100 + 1 / 2⌋ := Int.floor_le_floor (by linarith)
    have h3 : ⌊(1 / 2 : ℚ)⌋ = 0 := by norm_num
    omega
  have h1' : (0 : ℚ) ≤ ((⌊q * 100 + 1 / 2⌋ : ℤ) : ℚ) := by exact_mod_cast h1
  linarith

/-- When every numeric value inside the field is non-negative, so is the
extracted amount. -/
theorem usdOut_nonneg (f : UsdField) (q : ℚ) (hnn : f.sourceNonneg)
    (h : usdOut (usdRaw f) = some q) : 0 ≤ q := by
  cases f with
  | absent => simp [usdRaw, usdOut] at h; exact le_of_eq h
  | falsyVal => simp [usdRaw, usdOut] at h; exact le_of_eq h
  | truthyNoPegged => simp [usdRaw, usdOut] at h; exact le_of_eq h
  | truthyPegged v =>
    cases v with
    | num x =>
      simp only [usdRaw, usdOut] at h
      by_cases hx : x = 0
      · simp [hx] at h; simp [← h]
      · simp only [hx, if_false] at h
        obtain rfl : round2 x = q := by simpa using h
        exact round2_nonneg x hnn
    | truthyNonNumeric => simp [usdRaw, usdOut] at h
    | falsy => simp [usdRaw, usdOut] at h; simp [← h]

/-- An absent or falsy field falls back to exactly `0.00`. -/
theorem usdOut_fallback (f : UsdField) (hf : f = .absent ∨ f = .falsyVal) :
    usdOut (usdRaw f) = some 0 := by
  rcases hf with rfl | rfl <;> rfl

/-- Point normalization emits only log events. -/
theorem processPoints_events_logs (e : Entity) (now : String) :
    ∀ ps ev, ev ∈ (processPoints e now ps).2 → ∃ m, ev = Event.log m := by
  intro ps
  induction ps with
  | nil => intro ev h; simp [processPoints] at h
  | cons p ps ih =>
    intro ev h
    unfold processPoints at h
    cases hp : processPoint e now p with
    | some r => rw [hp] at h; exact ih ev h
    | none =>
      rw [hp] at h
      simp only [List.mem_cons] at h
      rcases h with rfl | h
      · exact ⟨_, rfl⟩
      · exact ih ev h

/-- Every record the normalization pass keeps comes from one of the points
of the list, via `processPoint`. -/
theorem processPoints_fst_mem (e : Entity) (now : String) :
    ∀ ps r, r ∈ (processPoints e now ps).1 →
      ∃ p ∈ ps, processPoint e now p = some r := by
  intro ps
  induction ps with
  | nil => intro r h; simp [processPoints] at h
  | cons p ps ih =>
    intro r h
    unfold processPoints at h
    cases hp : processPoint e now p with
    | some r' =>
      rw [hp] at h
      rcases List.mem_cons.mp h with rfl | h
      · exact ⟨p, List.mem_cons_self p ps, hp⟩
      · obtain ⟨p', hm, he⟩ := ih r h
        exact ⟨p', List.mem_cons_of_mem p hm, he⟩
    | none =>
      rw [hp] at h
      obtain ⟨p', hm, he⟩ := ih r h
      exact ⟨p', List.mem_cons_of_mem p hm, he⟩

/-- Every record of one entity's loop iteration comes from a point of the
payload accepted by the retry loop. -/
theorem processEntity_records_mem (now : String) (resp : Nat → HttpResponse) (e : Entity)
    (r : Record) (h : r ∈ (processEntity now resp e).records) :
    ∃ pts, (attemptFetch e.id e.symbol resp 0 max_retries).1 = some pts
      ∧ ∃ p ∈ pts, processPoint e now p = some r := by
  simp only [processEntity] at h
  cases hf : (attemptFetch e.id e.symbol resp 0 max_retries).1 with
  | none => rw [hf] at h; simp at h
  | some pts =>
    rw [hf] at h
    by_cases hp : pts.isEmpty
    · simp [hp] at h
    · simp only [hp, if_false] at h
      exact ⟨pts, rfl, processPoints_fst_mem e now pts r h⟩

/-- Every event of one entity's loop iteration is a request to its own URL,
a log line, or a backoff sleep. -/
theorem processEntity_events_shape (now : String) (resp : Nat → HttpResponse) (e : Entity)
    (ev : Event) (h : ev ∈ (processEntity now resp e).events) :
    ev = .request e.id ∨ (∃ m, ev = .log m) ∨ ev = .sleep .jitter ∨
      ev = .sleep .fixed10 := by
  simp only [processEntity] at h
  cases hf : (attemptFetch e.id e.symbol resp 0 max_retries).1 with
  | none =>
    rw [hf] at h
    simp only [List.mem_append, List.mem_singleton] at h
    rcases h with h | rfl
    · exact attemptFetch_events_shape e.id e.symbol resp max_retries 0 ev h
    · exact Or.inr (Or.inl ⟨_, rfl⟩)
  | some pts =>
    rw [hf] at h
    by_cases hp : pts.isEmpty
    · simp only [hp, if_true, List.mem_append, List.mem_singleton] at h
      rcases h with h | rfl
      · exact attemptFetch_events_shape e.id e.symbol resp max_retries 0 ev h
      · exact Or.inr (Or.inl ⟨_, rfl⟩)
    · rw [Bool.not_eq_true] at hp
      simp only [hp, Bool.false_eq_true, if_false, List.mem_append, List.mem_singleton] at h
      rcases h with (h | h) | rfl
      · exact attemptFetch_events_shape e.id e.symbol resp max_retries 0 ev h
      · obtain ⟨m, rfl⟩ := processPoints_events_logs e now pts ev h
        exact Or.inr (Or.inl ⟨m, rfl⟩)
      · exact Or.inr (Or.inl ⟨_, rfl⟩)

/-- The records accumulated by the entity loop are the concatenation, in
input order, of each entity's own records (`all_historical_data.append` at
line 113): one entity's outcome never alters another's records. -/
theorem runEntities_fst (now : String) (oracle : String → Nat → HttpResponse) (delay : ℚ)
    (total : Nat) :
    ∀ i L, (runEntities now oracle delay total i L).1
      = L.flatMap (fun e => (processEntity now (oracle e.id) e).records) := by
  intro i L
  induction L generalizing i with
  | nil => simp [runEntities]
  | cons e rest ih => simp [runEntities, ih]

/-- Sleep-ignoring event counts over the entity loop decompose into the sum
of the per-entity counts. -/
theorem runEntities_countP (p : Event → Bool) (hs : ∀ k, p (.sleep k) = false)
    (now : String) (oracle : String → Nat → HttpResponse) (delay : ℚ) (total : Nat) :
    ∀ i L, ((runEntities now oracle delay total i L).2.countP p)
      = (L.map fun e => (processEntity now (oracle e.id) e).events.countP p).sum := by
  intro i L
  induction L generalizing i with
  | nil => simp [runEntities]
  | cons e rest ih =>
    simp only [runEntities, List.countP_append, List.map_cons, List.sum_cons, ih (i + 1)]
    have hz : (if !(processEntity now (oracle e.id) e).skipped && i < total - 1 then
        ([Event.sleep (.interEntity delay)] : List Event) else []).countP p = 0 := by
      split
      · simp [List.countP_cons, hs]
      · simp
    omega

/-- When every attempt answers HTTP 500, the retry loop makes exactly `fuel`
attempts — each a request, a warning and a jittered sleep — and accepts
nothing. -/
theorem attemptFetch_all500 (eid symbol : String) (resp : Nat → HttpResponse)
    (h : ∀ j, resp j = .httpError 500) :
    ∀ fuel i, attemptFetch eid symbol resp i fuel
      = (none, (List.replicate fuel
          [Event.request eid, .log (.httpFailed 500), .sleep .jitter]).flatten) := by
  intro fuel
  induction fuel with
  | zero => intro i; simp [attemptFetch]
  | succ n ih =>
    intro i
    unfold attemptFetch
    rw [h i]
    simp [ih (i + 1), List.replicate_succ]

/-- The loop body for an entity whose every attempt answers HTTP 500:
three failed attempts, an error log, no records, and the `continue` that
skips the inter-entity sleep. -/
theorem processEntity_all500 (now : String) (resp : Nat → HttpResponse) (e : Entity)
    (h : ∀ j, resp j = .httpError 500) :
    processEntity now resp e =
      { records := [],
        events := [.request e.id, .log (.httpFailed 500), .sleep .jitter,
                   .request e.id, .log (.httpFailed 500), .sleep .jitter,
                   .request e.id, .log (.httpFailed 500), .sleep .jitter,
                   .log (.givingUp e.symbol)],
        skipped := true } := by
  simp [processEntity, max_retries, attemptFetch_all500 e.id e.symbol resp h,
    List.replicate]

/-- The entity loop never emits a write event. -/
theorem runEntities_no_write (now : String) (oracle : String → Nat → HttpResponse)
    (delay : ℚ) (total : Nat) :
    ∀ i L path rows, Event.write path rows ∉ (runEntities now oracle delay total i L).2 := by
  intro i L
  induction L generalizing i with
  | nil => intro path rows h; simp [runEntities] at h
  | cons e rest ih =>
    intro path rows h
    simp only [runEntities, List.mem_append] at h
    rcases h with (h | h) | h
    · rcases processEntity_events_shape now (oracle e.id) e _ h with h' | ⟨m, h'⟩ | h' | h' <;>
        simp at h'
    · split at h <;> simp at h
    · exact ih (i + 1) path rows h

/-- Totality of `recordLE`. -/
theorem recordLE_total (a b : Record) : recordLE a b || recordLE b a := by
  unfold recordLE
  rcases lt_trichotomy a.date b.date with h | h | h
  · simp [h]
  · rcases le_total a.stablecoin_symbol b.stablecoin_symbol with hs | hs <;> simp [h, hs]
  · simp [h]

/-- Transitivity of `recordLE`. -/
theorem recordLE_trans (a b c : Record) (hab : recordLE a b = true)
    (hbc : recordLE b c = true) : recordLE a c = true := by
  unfold recordLE at *
  simp only [Bool.or_eq_true, Bool.and_eq_true, decide_eq_true_eq, beq_iff_eq] at *
  rcases hab with h1 | ⟨h1, h1'⟩ <;> rcases hbc with h2 | ⟨h2, h2'⟩
  · exact Or.inl (lt_trans h1 h2)
  · exact Or.inl (h2 ▸ h1)
  · exact Or.inl (h1 ▸ h2)
  · exact Or.inr ⟨h1.trans h2, le_trans h1' h2'⟩

/-- The number of inter-entity sleeps performed by the entity loop: one per
entity that was not skipped and does not sit at the last index. -/
theorem runEntities_countP_inter (now : String) (oracle : String → Nat → HttpResponse)
    (delay : ℚ) (total : Nat) :
    ∀ L i, ((runEntities now oracle delay total i L).2.countP Event.isInterEntitySleep)
      = ((List.range' i L.length).zip L).countP
          (fun je => decide (je.1 < total - 1)
            && !(processEntity now (oracle je.2.id) je.2).skipped) := by
  intro L
  induction L with
  | nil => intro i; simp [runEntities]
  | cons e rest ih =>
    intro i
    simp only [runEntities, List.countP_append, List.length_cons, List.range'_succ,
      List.zip_cons_cons, List.countP_cons, ih (i + 1)]
    have h0 : ((processEntity now (oracle e.id) e).events.countP Event.isInterEntitySleep) = 0 := by
      rw [List.countP_eq_zero]
      intro ev hev
      rcases processEntity_events_shape now (oracle e.id) e ev hev with
        rfl | ⟨m, rfl⟩ | rfl | rfl <;> simp [Event.isInterEntitySleep]
    have h1 : ((if !(processEntity now (oracle e.id) e).skipped && i < total - 1 then
        ([Event.sleep (.interEntity delay)] : List Event) else []).countP
          Event.isInterEntitySleep)
        = if (decide (i < total - 1)
            && !(processEntity now (oracle e.id) e).skipped) = true then 1 else 0 := by
      rw [Bool.and_comm]
      split <;> simp [Event.isInterEntitySleep]
    rw [h0, h1]
    omega

/-- Every inter-entity sleep of the entity loop carries the configured
delay. -/
theorem runEntities_interEntity_delay (now : String) (oracle : String → Nat → HttpResponse)
    (delay : ℚ) (total : Nat) :
    ∀ L i q, Event.sleep (.interEntity q) ∈ (runEntities now oracle delay total i L).2 →
      q = delay := by
  intro L
  induction L with
  | nil => intro i q h; simp [runEntities] at h
  | cons e rest ih =>
    intro i q h
    simp only [runEntities, List.mem_append] at h
    rcases h with (h | h) | h
    · rcases processEntity_events_shape now (oracle e.id) e _ h with
        h' | ⟨m, h'⟩ | h' | h' <;> simp at h'
    · split at h <;> simp at h
      exact h
    · exact ih (i + 1) q h

/-- Any write event of the whole fetch names the configured output path and
carries exactly the sorted accumulator. -/
theorem fetch_write_eq (now : String) (input : Option StablecoinsCsv)
    (oracle : String → Nat → HttpResponse) (path : String) (d : ℚ) (p : String)
    (rows : List Record)
    (h : Event.write p rows ∈ (fetch_stablecoin_historical_data now input oracle path d).2) :
    ∃ csv, input = some csv ∧ p = path ∧
      rows = List.insertionSort recordLEP
        (runEntities now oracle d csv.entities.length 0 csv.entities).1 := by
  cases input with
  | none => simp [fetch_stablecoin_historical_data] at h
  | some csv =>
    refine ⟨csv, rfl, ?_⟩
    simp only [fetch_stablecoin_historical_data] at h
    split at h
    · split at h
      · simp only [List.mem_append, List.mem_singleton] at h
        rcases h with h | h
        · exact absurd h (runEntities_no_write now oracle d csv.entities.length 0 csv.entities p rows)
        · simp at h
      · simp only [List.mem_append, List.mem_singleton] at h
        rcases h with h | h
        · exact absurd h (runEntities_no_write now oracle d csv.entities.length 0 csv.entities p rows)
        · obtain ⟨rfl, rfl⟩ := by simpa using h
          exact ⟨rfl, rfl⟩
    · simp at h

/-- The retry loop never emits the line-82 "no historical data" info log:
its log lines are the warnings of lines 64, 66, 69, 72 and 75 only. -/
theorem attemptFetch_no_noData (eid symbol : String) (resp : Nat → HttpResponse) (s : String) :
    ∀ fuel i, Event.log (.noData s) ∉ (attemptFetch eid symbol resp i fuel).2 := by
  intro fuel
  induction fuel with
  | zero => intro i; simp [attemptFetch]
  | succ n ih =>
    intro i
    unfold attemptFetch
    cases hr : resp i with
    | ok body =>
      cases body with
      | invalidJson => simp [List.mem_cons, ih (i + 1)]
      | nonList => simp [List.mem_cons, ih (i + 1)]
      | list pts =>
        by_cases hp : pts.isEmpty
        · simp [hp, List.mem_cons, ih (i + 1)]
        · simp [hp]
    | rateLimited => simp [List.mem_cons, ih (i + 1)]
    | httpError code => simp [List.mem_cons, ih (i + 1)]
    | transportError => simp [List.mem_cons, ih (i + 1)]

/-- Point normalization never emits the "no historical data" info log
either: its only log line is the per-point warning of line 116. -/
theorem processPoints_no_noData (e : Entity) (now : String) (s : String) :
    ∀ ps, Event.log (.noData s) ∉ (processPoints e now ps).2 := by
  intro ps
  induction ps with
  | nil => simp [processPoints]
  | cons p ps ih =>
    unfold processPoints
    cases hp : processPoint e now p with
    | some r => simpa using ih
    | none => simp [List.mem_cons, ih]

/-- Every record an entity's loop iteration keeps carries that entity's
symbol (denormalized onto the row at line 106). -/
theorem processEntity_records_symbol (now : String) (resp : Nat → HttpResponse)
    (e : Entity) (r : Record) (h : r ∈ (processEntity now resp e).records) :
    r.stablecoin_symbol = e.symbol := by
  obtain ⟨pts, -, p, -, he⟩ := processEntity_records_mem now resp e r h
  obtain ⟨ts, c, b, -, -, -, rfl⟩ := processPoint_eq_some e now p r he
  rfl

/-- Every event of an entity's loop iteration appears in the full loop
trace. -/
theorem runEntities_events_sub (now : String) (oracle : String → Nat → HttpResponse)
    (d : ℚ) (total : Nat) :
    ∀ i L e', e' ∈ L → ∀ ev, ev ∈ (processEntity now (oracle e'.id) e').events →
      ev ∈ (runEntities now oracle d total i L).2 := by
  intro i L
  induction L generalizing i with
  | nil => intro e' h; simp at h
  | cons e rest ih =>
    intro e' h ev hev
    simp only [runEntities, List.mem_append]
    rcases List.mem_cons.mp h with rfl | h
    · exact Or.inl (Or.inl hev)
    · exact Or.inr (ih (i + 1) e' h ev hev)

end Stab

/-! ## Claim theorems -/

namespace Stab

/-- C4 (counterexample): a data point whose `totalCirculatingUSD` is
absent and whose `date` is a valid integer timestamp can still fail to
produce a record: when its `totalBridgedToUSD.peggedUSD` is a truthy
non-numeric value, `float(·)` raises and line 115 of `stab.py` skips the
whole point, so normalization does not "still produce a record" for every
such point. -/
theorem C4_counterexample :
    processPoint ⟨"1", "Tether", "USDT"⟩ "now"
      ⟨some (.valid 0), .absent, .truthyPegged .truthyNonNumeric⟩ = none := rfl

/-- C4 (amended): for every data point whose `totalCirculatingUSD` field
is absent or null/falsy, whose `date` is a valid integer timestamp, and
whose `totalBridgedToUSD` extraction does not itself raise, normalization
produces a record with `circulating_usd` equal to `0.00` instead of
skipping the point. -/
theorem C4_missing_circulating_defaults_zero (e : Entity) (now : String) (p : RawPoint)
    (ts : Int) (hdate : p.date = some (.valid ts))
    (hcirc : p.totalCirculatingUSD = .absent ∨ p.totalCirculatingUSD = .falsyVal)
    (hbr : (usdOut (usdRaw p.totalBridgedToUSD)).isSome) :
    ∃ r, processPoint e now p = some r ∧ r.circulating_usd = 0 := by
  obtain ⟨b, hb⟩ := Option.isSome_iff_exists.mp hbr
  refine ⟨{ stablecoin_id := e.id, stablecoin_name := e.name,
            stablecoin_symbol := e.symbol, date := formatTimestamp ts,
            circulating_usd := 0, bridged_usd := b, created_at := now }, ?_, rfl⟩
  unfold processPoint
  rw [hdate, usdOut_fallback _ hcirc, hb]

/-- Witness for C4 (amended) at a concrete point. -/
theorem C4_witness :
    ∃ r, processPoint ⟨"1", "Tether", "USDT"⟩ "now"
        ⟨some (.valid 5), .absent, .truthyPegged (.num 3)⟩ = some r
      ∧ r.circulating_usd = 0 :=
  C4_missing_circulating_defaults_zero ⟨"1", "Tether", "USDT"⟩ "now"
    ⟨some (.valid 5), .absent, .truthyPegged (.num 3)⟩ 5 rfl (Or.inl rfl) (by decide)

/-- C5: an entity answered HTTP 429 on the first attempt and HTTP 200
with a valid non-empty list on the second has its records collected; the 429
caused the fixed 10-second sleep and consumed one of the 3 attempts. An
entity answered 429 on every attempt exhausts the budget after 3 attempts
(each with its fixed 10-second sleep) and is skipped with an error log. -/
theorem C5_rate_limited_then_success (now : String) (e : Entity) (pts : List RawPoint)
    (resp resp' : Nat → HttpResponse)
    (h0 : resp 0 = .rateLimited) (h1 : resp 1 = .ok (.list pts)) (hne : pts ≠ [])
    (hall : ∀ j, resp' j = .rateLimited) :
    processEntity now resp e =
      { records := (processPoints e now pts).1
        events := [.request e.id, .log .rateLimited, .sleep .fixed10, .request e.id]
          ++ (processPoints e now pts).2 ++ [.log (.processed e.symbol pts.length)]
        skipped := false }
    ∧ processEntity now resp' e =
      { records := []
        events := [.request e.id, .log .rateLimited, .sleep .fixed10,
                   .request e.id, .log .rateLimited, .sleep .fixed10,
                   .request e.id, .log .rateLimited, .sleep .fixed10,
                   .log (.givingUp e.symbol)]
        skipped := true } := by
  have hne' : pts.isEmpty = false := by
    cases pts with
    | nil => exact absurd rfl hne
    | cons p ps => rfl
  constructor
  · simp [processEntity, max_retries, attemptFetch, h0, h1, hne']
  · simp [processEntity, max_retries, attemptFetch, hall]

/-- Witness for C5 at a concrete oracle: the 429-then-200 entity is not
skipped. -/
theorem C5_witness :
    (processEntity "now"
      (fun n => if n = 0 then .rateLimited
        else .ok (.list [⟨some (.valid 1), .absent, .absent⟩]))
      ⟨"1", "Tether", "USDT"⟩).skipped = false := by
  rw [(C5_rate_limited_then_success "now" ⟨"1", "Tether", "USDT"⟩
    [⟨some (.valid 1), .absent, .absent⟩]
    (fun n => if n = 0 then .rateLimited
      else .ok (.list [⟨some (.valid 1), .absent, .absent⟩]))
    (fun _ => .rateLimited) rfl rfl (by decide) (fun j => rfl)).1]

/-- C6: an input table missing one of the required columns `id`, `name`,
`symbol` makes the fetch raise the fatal missing-columns error with an empty
event trace: no network request is performed and no output file written. -/
theorem C6_missing_columns_fail_fast (now : String) (csv : StablecoinsCsv)
    (oracle : String → Nat → HttpResponse) (path : String) (d : ℚ)
    (h : ∃ c ∈ required_columns, c ∉ csv.columns) :
    ∃ missing, missing ≠ [] ∧
      fetch_stablecoin_historical_data now (some csv) oracle path d
        = (.error (.missingColumns missing), []) := by
  have hm : ¬ ((required_columns.filter fun c => !csv.columns.contains c).isEmpty = true) := by
    obtain ⟨c, hc, hnc⟩ := h
    intro he
    rw [List.isEmpty_iff] at he
    have hcm : c ∈ required_columns.filter fun c => !csv.columns.contains c := by
      rw [List.mem_filter]
      exact ⟨hc, by simpa using hnc⟩
    rw [he] at hcm
    simp at hcm
  refine ⟨required_columns.filter fun c => !csv.columns.contains c, ?_, ?_⟩
  · intro h0
    exact hm (by rw [h0]; rfl)
  · simp only [fetch_stablecoin_historical_data]
    rw [if_neg hm]

/-- Witness for C6: a table with only `id` and `symbol` columns. -/
theorem C6_witness :
    ∃ missing, missing ≠ [] ∧
      fetch_stablecoin_historical_data "t" (some ⟨["id", "symbol"], []⟩)
        (fun _ _ => .transportError) "out.csv" 1
        = (.error (.missingColumns missing), []) :=
  C6_missing_columns_fail_fast "t" ⟨["id", "symbol"], []⟩ (fun _ _ => .transportError)
    "out.csv" 1 ⟨"name", by decide, by decide⟩

/-- C8 (counterexample): an I/O-level failure of `pd.read_csv` (file
absent or unreadable) does not propagate: the blanket
`except Exception: return False` of lines 189-191 catches it, and
`validate_csv_structure` returns `False` with an error log. -/
theorem C8_counterexample :
    validate_csv_structure .ioError = (Except.ok false, [.readFailed]) := rfl

/-- C8 (amended): for every input, `validate_csv_structure` returns a
boolean (logging exactly one line recording the outcome) and never lets an
exception propagate — including for I/O-level errors, which are caught by
the blanket `except Exception` and also yield `false`. -/
theorem C8_never_throws (read : CsvReadResult) :
    (∃ b, (validate_csv_structure read).1 = Except.ok b)
    ∧ (validate_csv_structure read).2.length = 1 := by
  cases read with
  | ioError => exact ⟨⟨false, rfl⟩, rfl⟩
  | table cols d c b cr =>
    simp only [validate_csv_structure]
    split
    · split
      · exact ⟨⟨true, rfl⟩, rfl⟩
      · exact ⟨⟨false, rfl⟩, rfl⟩
    · exact ⟨⟨false, rfl⟩, rfl⟩

/-- C7 (counterexample): an entity whose endpoint returns HTTP 200 with
an empty list on every attempt is NOT skipped through the info-level
"no data" path: the empty list is falsy, fails line 61's guard, and takes
the warning + jittered-retry path, so after 3 attempts the entity is skipped
through the line-78 error log — the same path as retry exhaustion. -/
theorem C7_counterexample :
    (processEntity "now" (fun _ => .ok (.list [])) ⟨"1", "Tether", "USDT"⟩ =
      { records := [],
        events := [.request "1", .log (.emptyOrInvalidJson "USDT"), .sleep .jitter,
                   .request "1", .log (.emptyOrInvalidJson "USDT"), .sleep .jitter,
                   .request "1", .log (.emptyOrInvalidJson "USDT"), .sleep .jitter,
                   .log (.givingUp "USDT")],
        skipped := true })
    ∧ Event.log (.noData "USDT") ∉
        (processEntity "now" (fun _ => .ok (.list [])) ⟨"1", "Tether", "USDT"⟩).events
    ∧ (LogMsg.givingUp "USDT").level = "error"
    ∧ (LogMsg.noData "USDT").level = "info" := by
  refine ⟨rfl, by decide, rfl, rfl⟩

/-- C7 (amended): an HTTP-success response whose payload is an empty
list is treated as an empty/invalid payload — warning log, jittered sleep,
retry — and after the 3 attempts the entity is skipped with the error-level
giving-up log, exactly as under retry exhaustion; the separate info-level
zero-point skip of lines 81-83 is unreachable, since the retry loop only
accepts non-empty list payloads. -/
theorem C7_empty_payload_error_path (now : String) (e : Entity)
    (resp : Nat → HttpResponse) (h : ∀ j, resp j = .ok (.list [])) :
    (processEntity now resp e =
      { records := [],
        events := [.request e.id, .log (.emptyOrInvalidJson e.symbol), .sleep .jitter,
                   .request e.id, .log (.emptyOrInvalidJson e.symbol), .sleep .jitter,
                   .request e.id, .log (.emptyOrInvalidJson e.symbol), .sleep .jitter,
                   .log (.givingUp e.symbol)],
        skipped := true })
    ∧ ∀ resp' : Nat → HttpResponse,
        Event.log (.noData e.symbol) ∉ (processEntity now resp' e).events := by
  constructor
  · simp [processEntity, max_retries, attemptFetch, h]
  · intro resp'
    simp only [processEntity]
    cases hf : (attemptFetch e.id e.symbol resp' 0 max_retries).1 with
    | none =>
      intro hmem
      simp only [List.mem_append, List.mem_singleton] at hmem
      rcases hmem with hmem | hmem
      · exact attemptFetch_no_noData e.id e.symbol resp' e.symbol max_retries 0 hmem
      · simp at hmem
    | some pts =>
      have hp := attemptFetch_fst_isEmpty e.id e.symbol resp' max_retries 0 pts hf
      intro hmem
      simp only [hp, Bool.false_eq_true, if_false, List.mem_append, List.mem_singleton] at hmem
      rcases hmem with (hmem | hmem) | hmem
      · exact attemptFetch_no_noData e.id e.symbol resp' e.symbol max_retries 0 hmem
      · exact processPoints_no_noData e now e.symbol pts hmem
      · simp at hmem

/-- Witness for C7 (amended): the concrete always-empty oracle ends in the
skipped state. -/
theorem C7_witness :
    (processEntity "t" (fun _ => .ok (.list [])) ⟨"2", "Circle", "USDC"⟩).skipped
      = true := by
  rw [(C7_empty_payload_error_path "t" ⟨"2", "Circle", "USDC"⟩
    (fun _ => .ok (.list [])) (fun j => rfl)).1]

/-- C3: the rows of every write event of a run are sorted ascending by
the (date, symbol) key: every adjacent pair satisfies `recordLE`
(lexicographic: strictly earlier date, or equal date and symbol ≤). -/
theorem C3_output_sorted (now : String) (input : Option StablecoinsCsv)
    (oracle : String → Nat → HttpResponse) (path : String) (d : ℚ) (p : String)
    (rows : List Record)
    (h : Event.write p rows ∈
      (fetch_stablecoin_historical_data now input oracle path d).2) :
    List.Chain' recordLEP rows := by
  obtain ⟨csv, -, -, rfl⟩ := fetch_write_eq now input oracle path d p rows h
  haveI : IsTotal Record recordLEP :=
    ⟨fun a b => by unfold recordLEP; simpa using recordLE_total a b⟩
  haveI : IsTrans Record recordLEP :=
    ⟨fun a b c hab hbc => recordLE_trans a b c hab hbc⟩
  exact (List.sorted_insertionSort recordLEP _).chain'

/-- Witness for C3: a two-entity run whose write event interleaves the
symbols, checked sorted. -/
theorem C3_witness :
    List.Chain' recordLEP
      [{ stablecoin_id := "2", stablecoin_name := "Circle", stablecoin_symbol := "USDC",
         date := formatTimestamp 100, circulating_usd := 0, bridged_usd := 7,
         created_at := "NOW" },
       { stablecoin_id := "1", stablecoin_name := "Tether", stablecoin_symbol := "USDT",
         date := formatTimestamp 100, circulating_usd := 0, bridged_usd := 7,
         created_at := "NOW" }] :=
  C3_output_sorted "NOW"
    (some ⟨["id", "name", "symbol"],
      [⟨"1", "Tether", "USDT"⟩, ⟨"2", "Circle", "USDC"⟩]⟩)
    (fun _ _ => .ok (.list [⟨some (.valid 100), .absent, .truthyPegged (.num 7)⟩]))
    "out.csv" 2 "out.csv" _ (by with_unfolding_all decide)

/-- C2 (counterexample): the code does not enforce non-negativity — a
point whose `peggedUSD` is the negative number `-5` is truthy, passes the
`if circulating_usd` guard and is rounded and persisted unchanged, so a
persisted row carries `circulating_usd = -5 < 0`. -/
theorem C2_counterexample :
    (Event.write "out.csv"
      [{ stablecoin_id := "1", stablecoin_name := "Tether", stablecoin_symbol := "USDT",
         date := formatTimestamp 0, circulating_usd := -5, bridged_usd := 0,
         created_at := "now" }] ∈
      (fetch_stablecoin_historical_data "now"
        (some ⟨["id", "name", "symbol"], [⟨"1", "Tether", "USDT"⟩]⟩)
        (fun _ _ => .ok (.list [⟨some (.valid 0), .truthyPegged (.num (-5)), .absent⟩]))
        "out.csv" 2).2)
    ∧ (-5 : ℚ) < 0 := by
  constructor
  · with_unfolding_all decide
  · norm_num

/-- C2 (amended): every persisted row's `circulating_usd` and
`bridged_usd` are the rounded source amounts with fallback `0.00` when the
source field is absent or null/falsy; they are non-negative provided every
numeric `peggedUSD` value the oracle delivers is non-negative (the code
passes negative and non-finite values through unchanged, so the
unconditional invariant of the claim does not hold). -/
theorem C2_nonneg_when_source_nonneg (now : String) (input : Option StablecoinsCsv)
    (oracle : String → Nat → HttpResponse) (path : String) (d : ℚ)
    (hnn : ∀ id j pts, oracle id j = .ok (.list pts) →
      ∀ p ∈ pts, p.totalCirculatingUSD.sourceNonneg ∧ p.totalBridgedToUSD.sourceNonneg)
    (p' : String) (rows : List Record)
    (hw : Event.write p' rows ∈
      (fetch_stablecoin_historical_data now input oracle path d).2) :
    (∀ r ∈ rows, 0 ≤ r.circulating_usd ∧ 0 ≤ r.bridged_usd)
    ∧ ∀ (e : Entity) (pt : RawPoint) (r : Record),
        (pt.totalCirculatingUSD = .absent ∨ pt.totalCirculatingUSD = .falsyVal) →
        processPoint e now pt = some r → r.circulating_usd = 0 := by
  constructor
  · intro r hr
    obtain ⟨csv, -, -, rfl⟩ := fetch_write_eq now input oracle path d p' rows hw
    rw [List.Perm.mem_iff (List.perm_insertionSort recordLEP _)] at hr
    rw [runEntities_fst] at hr
    rw [List.mem_flatMap] at hr
    obtain ⟨e, -, hre⟩ := hr
    obtain ⟨pts, hacc, pt, hpt, hpr⟩ :=
      processEntity_records_mem now (oracle e.id) e r hre
    obtain ⟨j, hj⟩ :=
      attemptFetch_fst_some_attempt e.id e.symbol (oracle e.id) max_retries 0 pts hacc
    obtain ⟨hc, hb⟩ := hnn e.id j pts hj pt hpt
    obtain ⟨ts, c, b, -, hcu, hbu, rfl⟩ := processPoint_eq_some e now pt r hpr
    exact ⟨usdOut_nonneg _ c hc hcu, usdOut_nonneg _ b hb hbu⟩
  · intro e pt r hfall hpr
    obtain ⟨ts, c, b, -, hcu, -, rfl⟩ := processPoint_eq_some e now pt r hpr
    rw [usdOut_fallback _ hfall] at hcu
    simpa using hcu.symm

/-- Witness for C2 (amended) at a concrete all-non-negative oracle. -/
theorem C2_witness :
    0 ≤ ({ stablecoin_id := "1", stablecoin_name := "Tether",
           stablecoin_symbol := "USDT", date := formatTimestamp 0,
           circulating_usd := 7, bridged_usd := 0, created_at := "now" } : Record).circulating_usd
    ∧ 0 ≤ ({ stablecoin_id := "1", stablecoin_name := "Tether",
             stablecoin_symbol := "USDT", date := formatTimestamp 0,
             circulating_usd := 7, bridged_usd := 0, created_at := "now" } : Record).bridged_usd :=
  (C2_nonneg_when_source_nonneg "now"
    (some ⟨["id", "name", "symbol"], [⟨"1", "Tether", "USDT"⟩]⟩)
    (fun _ _ => .ok (.list [⟨some (.valid 0), .truthyPegged (.num 7), .absent⟩]))
    "out.csv" 2
    (by
      intro id j pts h pt hpt
      injection h with h1
      injection h1 with h2
      subst h2
      have hpt' : pt = ⟨some (.valid 0), .truthyPegged (.num 7), .absent⟩ := by
        simpa using hpt
      subst hpt'
      constructor
      · show (0 : ℚ) ≤ 7
        norm_num
      · trivial)
    "out.csv"
    [{ stablecoin_id := "1", stablecoin_name := "Tether",
       stablecoin_symbol := "USDT", date := formatTimestamp 0,
       circulating_usd := 7, bridged_usd := 0, created_at := "now" }]
    (by with_unfolding_all decide)).1
    { stablecoin_id := "1", stablecoin_name := "Tether",
      stablecoin_symbol := "USDT", date := formatTimestamp 0,
      circulating_usd := 7, bridged_usd := 0, created_at := "now" }
    (List.mem_singleton.mpr rfl)

/-- C10 (counterexample): the declared default of
`delay_between_requests` (`stab.py` line 16) is `0.5`, not `2.0` — `2.0` is
only what the `__main__` example invocation passes explicitly. A two-entity
run invoked without an explicit delay performs a `0.5`-second inter-entity
sleep and no `2.0`-second one. -/
theorem C10_counterexample :
    DEFAULT_DELAY ≠ 2
    ∧ (Event.sleep (.interEntity (1 / 2)) ∈
        (fetch_stablecoin_historical_data "now"
          (some ⟨["id", "name", "symbol"],
            [⟨"1", "Tether", "USDT"⟩, ⟨"2", "Circle", "USDC"⟩]⟩)
          (fun _ _ => .ok (.list [⟨some (.valid 0), .absent, .absent⟩]))
          "out.csv").2)
    ∧ (Event.sleep (.interEntity 2) ∉
        (fetch_stablecoin_historical_data "now"
          (some ⟨["id", "name", "symbol"],
            [⟨"1", "Tether", "USDT"⟩, ⟨"2", "Circle", "USDC"⟩]⟩)
          (fun _ _ => .ok (.list [⟨some (.valid 0), .absent, .absent⟩]))
          "out.csv").2) := by
  refine ⟨?_, ?_, ?_⟩
  · intro h
    exact absurd (by norm_num [DEFAULT_DELAY] at h) not_false
  · with_unfolding_all decide
  · with_unfolding_all decide

/-- C10 (amended): after each entity except the last whose loop body was
not skipped by a `continue`, the fetcher sleeps the configurable
inter-entity delay, whose declared default is `0.5` seconds; entities
skipped by retry exhaustion (or the dead no-data branch) and the final
entity trigger no inter-entity sleep. Formally: the default is `1/2`, every
inter-entity sleep of a run carries the configured delay, and the number of
inter-entity sleeps equals the number of non-final, non-skipped entity
positions. -/
theorem C10_inter_entity_delay (now : String) (csv : StablecoinsCsv)
    (oracle : String → Nat → HttpResponse) (path : String) (d : ℚ)
    (hcols : (required_columns.filter fun c => !csv.columns.contains c).isEmpty = true) :
    DEFAULT_DELAY = 1 / 2
    ∧ (∀ q, Event.sleep (.interEntity q) ∈
        (fetch_stablecoin_historical_data now (some csv) oracle path d).2 → q = d)
    ∧ ((fetch_stablecoin_historical_data now (some csv) oracle path d).2.countP
          Event.isInterEntitySleep
        = ((List.range' 0 csv.entities.length).zip csv.entities).countP
            (fun je => decide (je.1 < csv.entities.length - 1)
              && !(processEntity now (oracle je.2.id) je.2).skipped)) := by
  refine ⟨rfl, ?_, ?_⟩
  · intro q hq
    simp only [fetch_stablecoin_historical_data, hcols, if_true] at hq
    split at hq <;>
    · simp only [List.mem_append, List.mem_singleton] at hq
      rcases hq with hq | hq
      · exact runEntities_interEntity_delay now oracle d csv.entities.length
          csv.entities 0 q hq
      · simp at hq
  · simp only [fetch_stablecoin_historical_data, hcols, if_true]
    split <;>
    · rw [List.countP_append]
      rw [runEntities_countP_inter]
      simp [Event.isInterEntitySleep]

/-- Witness for C10 at a concrete two-entity input: the theorem applies and
yields the default value. -/
theorem C10_witness : DEFAULT_DELAY = 1 / 2 :=
  (C10_inter_entity_delay "now"
    ⟨["id", "name", "symbol"], [⟨"1", "Tether", "USDT"⟩, ⟨"2", "Circle", "USDC"⟩]⟩
    (fun _ _ => .ok (.list [⟨some (.valid 0), .absent, .absent⟩]))
    "out.csv" 2 (by decide)).1

/-- C1: in a run over `pre ++ e :: post` whose entity `e` is answered
HTTP 500 on every attempt (no other entity sharing its id or symbol), the
fetcher (a) performs exactly 3 request attempts for `e`, (b) logs the
error-level giving-up line for `e`, (c) accumulates exactly the records of
the other entities, each computed from its own responses alone — so they
are unaffected by `e`'s failure — and (d) no persisted row carries `e`'s
symbol. -/
theorem C1_failed_entity_skipped (now : String) (oracle : String → Nat → HttpResponse)
    (pre post : List Entity) (e : Entity) (path : String) (d : ℚ)
    (h500 : ∀ j, oracle e.id j = .httpError 500)
    (hid : ∀ e' ∈ pre ++ post, e'.id ≠ e.id)
    (hsym : ∀ e' ∈ pre ++ post, e'.symbol ≠ e.symbol) :
    (((fetch_stablecoin_historical_data now (some ⟨required_columns, pre ++ e :: post⟩)
        oracle path d).2.countP (Event.isRequestTo e.id)) = 3)
    ∧ Event.log (.givingUp e.symbol) ∈
        (fetch_stablecoin_historical_data now (some ⟨required_columns, pre ++ e :: post⟩)
          oracle path d).2
    ∧ (runEntities now oracle d (pre ++ e :: post).length 0 (pre ++ e :: post)).1
        = (pre ++ post).flatMap (fun e' => (processEntity now (oracle e'.id) e').records)
    ∧ ∀ p rows, Event.write p rows ∈
        (fetch_stablecoin_historical_data now (some ⟨required_columns, pre ++ e :: post⟩)
          oracle path d).2 →
        ∀ r ∈ rows, r.stablecoin_symbol ≠ e.symbol := by
  have hcols : ((required_columns.filter fun c =>
      !(required_columns : List String).contains c).isEmpty = true) := by decide
  have he500 := processEntity_all500 now (oracle e.id) e h500
  have hcount0 : ∀ e' , e'.id ≠ e.id →
      ((processEntity now (oracle e'.id) e').events.countP (Event.isRequestTo e.id)) = 0 := by
    intro e' hne
    rw [List.countP_eq_zero]
    intro ev hev
    rcases processEntity_events_shape now (oracle e'.id) e' ev hev with
      rfl | ⟨m, rfl⟩ | rfl | rfl
    · simp [Event.isRequestTo, beq_iff_eq]
      exact fun hc => hne hc.symm
    · simp [Event.isRequestTo]
    · simp [Event.isRequestTo]
    · simp [Event.isRequestTo]
  have hcount3 :
      ((processEntity now (oracle e.id) e).events.countP (Event.isRequestTo e.id)) = 3 := by
    rw [he500]
    simp [List.countP_cons, Event.isRequestTo]
  refine ⟨?_, ?_, ?_, ?_⟩
  · simp only [fetch_stablecoin_historical_data, hcols, if_true]
    have hreq : ∀ L : List Entity, (∀ e' ∈ L, e'.id ≠ e.id) →
        ((L.map fun e' => (processEntity now (oracle e'.id) e').events.countP
          (Event.isRequestTo e.id)).sum) = 0 := by
      intro L hL
      induction L with
      | nil => simp
      | cons a as ih =>
        simp only [List.map_cons, List.sum_cons]
        rw [hcount0 a (hL a (List.mem_cons_self a as)),
          ih fun e' h => hL e' (List.mem_cons_of_mem a h)]
    have hmain : ((runEntities now oracle d (pre ++ e :: post).length 0
        (pre ++ e :: post)).2.countP (Event.isRequestTo e.id)) = 3 := by
      rw [runEntities_countP (Event.isRequestTo e.id) (fun k => rfl) now oracle d
        (pre ++ e :: post).length 0 (pre ++ e :: post)]
      rw [List.map_append, List.sum_append, List.map_cons, List.sum_cons]
      rw [hreq pre fun e' h => hid e' (List.mem_append_left post h)]
      rw [hreq post fun e' h => hid e' (List.mem_append_right pre h)]
      rw [hcount3]
      omega
    split <;>
    · rw [List.countP_append, hmain]
      simp [Event.isRequestTo]
  · simp only [fetch_stablecoin_historical_data, hcols, if_true]
    have hin : Event.log (.givingUp e.symbol) ∈
        (runEntities now oracle d (pre ++ e :: post).length 0 (pre ++ e :: post)).2 := by
      apply runEntities_events_sub now oracle d (pre ++ e :: post).length 0
        (pre ++ e :: post) e (by simp)
      rw [he500]
      simp
    split <;> exact List.mem_append_left _ hin
  · rw [runEntities_fst]
    have hrec : (processEntity now (oracle e.id) e).records = [] := by rw [he500]
    simp [List.flatMap_append, hrec]
  · intro p rows hw r hr
    obtain ⟨csv, hcsv, -, hrows⟩ := fetch_write_eq now
      (some ⟨required_columns, pre ++ e :: post⟩) oracle path d p rows hw
    obtain rfl : csv = ⟨required_columns, pre ++ e :: post⟩ := by
      injection hcsv.symm
    subst hrows
    rw [List.Perm.mem_iff (List.perm_insertionSort recordLEP _)] at hr
    rw [runEntities_fst] at hr
    rw [List.mem_flatMap] at hr
    obtain ⟨e', he', hre'⟩ := hr
    have hsyme' : r.stablecoin_symbol = e'.symbol :=
      processEntity_records_symbol now (oracle e'.id) e' r hre'
    rcases List.mem_append.mp he' with h | h
    · rw [hsyme']
      exact hsym e' (List.mem_append_left post h)
    · rcases List.mem_cons.mp h with rfl | h
      · have : (processEntity now (oracle e'.id) e').records = [] := by
          rw [he500]
        rw [this] at hre'
        simp at hre'
      · rw [hsyme']
        exact hsym e' (List.mem_append_right pre h)

/-- Witness for C1: one healthy entity and one permanently failing one. -/
theorem C1_witness :
    ((fetch_stablecoin_historical_data "now"
      (some ⟨required_columns, [⟨"1", "Tether", "USDT"⟩] ++ ⟨"9", "Dead", "DEAD"⟩ :: []⟩)
      (fun id _ => if id = "9" then .httpError 500
        else .ok (.list [⟨some (.valid 0), .absent, .absent⟩]))
      "out.csv" 2).2.countP (Event.isRequestTo "9")) = 3 :=
  (C1_failed_entity_skipped "now"
    (fun id _ => if id = "9" then .httpError 500
      else .ok (.list [⟨some (.valid 0), .absent, .absent⟩]))
    [⟨"1", "Tether", "USDT"⟩] [] ⟨"9", "Dead", "DEAD"⟩ "out.csv" 2
    (fun j => rfl) (by decide) (by decide)).1

end Stab

namespace Dune

/-- C9: the polling loop requests the execution status, exits only when
the reported state equals `QUERY_STATE_COMPLETED`, and otherwise sleeps a
fixed 5 seconds before the next poll; it has no timeout, so when no status
response ever equals `QUERY_STATE_COMPLETED` (e.g. an execution stuck in a
terminal failure state), the loop never terminates: under every finite fuel
bound it returns no result, having strictly alternated one status request
and one 5-second sleep per iteration. -/
theorem C9_polling_fixed_interval_no_timeout (states : Nat → String) :
    ((∀ n, states n ≠ QUERY_STATE_COMPLETED) →
      ∀ fuel i, pollLoop states i fuel
        = (none, (List.range' i fuel).flatMap fun j => [.statusRequest j, .sleep5]))
    ∧ (∀ i fuel k, (pollLoop states i fuel).1 = some k →
        states k = QUERY_STATE_COMPLETED) := by
  constructor
  · intro h fuel
    induction fuel with
    | zero => intro i; simp [pollLoop]
    | succ n ih =>
      intro i
      unfold pollLoop
      rw [if_neg (h i)]
      simp [ih (i + 1), List.range'_succ]
  · intro i fuel
    induction fuel generalizing i with
    | zero => intro k h; simp [pollLoop] at h
    | succ n ih =>
      intro k h
      unfold pollLoop at h
      by_cases hc : states i = QUERY_STATE_COMPLETED
      · rw [if_pos hc] at h
        simp at h
        exact h ▸ hc
      · rw [if_neg hc] at h
        exact ih (i + 1) k h

/-- Witness for C9: a permanently failed execution polls forever — after 2
iterations (and two 5-second sleeps) the loop is still running. -/
theorem C9_witness :
    pollLoop (fun _ => "QUERY_STATE_FAILED") 0 2
      = (none, [.statusRequest 0, .sleep5, .statusRequest 1, .sleep5]) := by
  rw [(C9_polling_fixed_interval_no_timeout (fun _ => "QUERY_STATE_FAILED")).1
    (fun n => by decide) 2 0]
  rfl

end Dune
